import Mathlib

/-!
Verification development for the Shopify store analyzer
(`app/services/scraper.py`, `app/services/data_extractor.py`,
`app/services/compititor_analysis.py`, `app/models/schemas.py`).

Modelling conventions:
* Python `str` values are modelled as `List Char` (or `String`, whose data is a
  `List Char`); Python floats are modelled as exact rationals `ℚ`.
* Network effects are modelled by passing the responses in explicitly (a page
  oracle `Nat → …` for pagination, an environment record for the insight
  assembler); code that may raise is modelled in `Except`.
* Python regular-expression matching is modelled by a small executable
  backtracking matcher over sequences of single-character items; bounded
  greedy repetitions `{m,n}` are expanded into `m` required items followed by
  `n - m` greedy optional items of the same character class, and unbounded
  repetitions are bounded by the input length (which never constrains a match).
-/

namespace StoreAnalyzer

/-! ### Python string primitives -/

/-- Characters treated as whitespace by Python's `str.strip`, `str.split` and
the regex class `\s` (the ASCII whitespace characters). -/
def pyWS (c : Char) : Bool :=
  c = ' ' || c = '\t' || c = '\n' || c = '\r' || c = Char.ofNat 11 || c = Char.ofNat 12

/-- Python `str.strip()`: drop leading and trailing whitespace. -/
def pyStrip (cs : List Char) : List Char :=
  ((cs.dropWhile pyWS).reverse.dropWhile pyWS).reverse

/-- Python `str.rstrip('/')`: drop every trailing `'/'` character. -/
def rstripSlash (cs : List Char) : List Char :=
  (cs.reverse.dropWhile (fun c => c = '/')).reverse

/-- Whether a string ends in `'/'`. -/
def endsWithSlash (cs : List Char) : Bool := cs.getLast? = some '/'

/-- Python `str.split()` (no separator): maximal runs of non-whitespace. -/
def pySplitAux : List Char → List Char → List (List Char)
  | [], cur => if cur.isEmpty then [] else [cur.reverse]
  | c :: cs, cur =>
    if pyWS c then
      if cur.isEmpty then pySplitAux cs [] else cur.reverse :: pySplitAux cs []
    else pySplitAux cs (c :: cur)

/-- `DataExtractor._clean_html` (data_extractor.py:503-515) on tag-free text:
`' '.join(text.split())` followed by `strip()`.  (The BeautifulSoup pass that
removes markup is the identity on the tag-free element text the FAQ extractor
feeds it.) -/
def clean_htmlL (cs : List Char) : List Char :=
  pyStrip (List.intercalate [' '] (pySplitAux cs []))

/-! ### `WebScraper.normalize_url` (scraper.py:41-45) -/

/-- `WebScraper.normalize_url`: prepend `"https://"` when the URL starts with
neither `"http://"` nor `"https://"`, then strip all trailing slashes. -/
def normalize_url (url : List Char) : List Char :=
  let url' :=
    if "http://".data.isPrefixOf url || "https://".data.isPrefixOf url then url
    else "https://".data ++ url
  rstripSlash url'

/-- String-level wrapper of `normalize_url`. -/
def normalize_urlS (url : String) : String := ⟨normalize_url url.data⟩

theorem head?_dropWhile_ne {α : Type} (p : α → Bool) :
    ∀ (l : List α) (a : α), (l.dropWhile p).head? = some a → p a = false := by
  intro l
  induction l with
  | nil => intro a h; simp [List.dropWhile] at h
  | cons x xs ih =>
    intro a h
    by_cases hx : p x
    · rw [List.dropWhile_cons_of_pos hx] at h; exact ih a h
    · rw [List.dropWhile_cons_of_neg hx] at h
      simp at h
      rw [← h]
      exact Bool.eq_false_iff.mpr hx

theorem rstripSlash_no_trailing (cs : List Char) :
    endsWithSlash (rstripSlash cs) = false := by
  unfold endsWithSlash rstripSlash
  rw [List.getLast?_reverse]
  cases h : (cs.reverse.dropWhile (fun c => c = '/')).head? with
  | none => simp [h]
  | some a =>
    have := head?_dropWhile_ne (fun c => c = '/') cs.reverse a h
    simp at this
    simp [h, this]

/-- Claim C6 counterexample: an input that already carries the `http://`
scheme is returned unchanged, so the normalized URL does not always start
with `"https://"`. -/
theorem normalize_url_http_counterexample :
    normalize_url "http://example.com".data = "http://example.com".data ∧
    "https://".data.isPrefixOf (normalize_url "http://example.com".data) = false := by
  decide

/-- Claim C6 (amended): the assembler's URL normalization prepends `https://`
only when the input starts with neither `http://` nor `https://`, keeps an
existing scheme unchanged, and strips all trailing slashes, so the result
never ends with `'/'`. -/
theorem normalize_url_amended (url : List Char) :
    endsWithSlash (normalize_url url) = false ∧
    (("http://".data.isPrefixOf url || "https://".data.isPrefixOf url) = true →
      normalize_url url = rstripSlash url) ∧
    (("http://".data.isPrefixOf url || "https://".data.isPrefixOf url) = false →
      normalize_url url = rstripSlash ("https://".data ++ url)) := by
  refine ⟨rstripSlash_no_trailing _, ?_, ?_⟩
  · intro h; simp [normalize_url, h]
  · intro h; simp [normalize_url, h]

/-- Claim C6 witness: the amended theorem applied to a concrete scheme-carrying
URL with a trailing slash. -/
theorem normalize_url_amended_witness :
    endsWithSlash (normalize_url "http://example.com/".data) = false ∧
    normalize_url "http://example.com/".data = rstripSlash "http://example.com/".data :=
  ⟨(normalize_url_amended "http://example.com/".data).1,
   (normalize_url_amended "http://example.com/".data).2.1 (by decide)⟩

/-! ### `WebScraper.get_all_products_paginated` (scraper.py:95-115)

A page response is `none` when `get_json_content` returned `None` (fetch or
JSON decode failure) or a falsy value, `some none` when the JSON object has no
`'products'` key, and `some (some l)` when `data['products'] = l`.  The Python
`while True` loop is modelled with a fuel parameter bounding the number of
iterations; every claim is stated for fuel large enough to reach the first
terminating page, which makes the result fuel-independent. -/

/-- One `products.json` page response (see `get_json_content`, scraper.py:80-88). -/
abbrev PageResp (α : Type) := Option (Option (List α))

/-- Loop body of `get_all_products_paginated`: accumulator `acc`, current page
number `page`, page size fixed at 50. -/
def get_all_products_paginatedAux {α : Type} (fetch : Nat → PageResp α) :
    Nat → List α → Nat → List α
  | 0, acc, _ => acc
  | fuel + 1, acc, page =>
    match fetch page with
    | some (some l) =>
      if l.isEmpty then acc
      else
        let acc' := acc ++ l
        if l.length < 50 then acc'
        else get_all_products_paginatedAux fetch fuel acc' (page + 1)
    | _ => acc

/-- `WebScraper.get_all_products_paginated`: accumulate pages starting at
page 1 until a page fails, lacks products, is empty, or is short. -/
def get_all_products_paginated {α : Type} (fetch : Nat → PageResp α) (fuel : Nat) :
    List α :=
  get_all_products_paginatedAux fetch fuel [] 1

/-- Contents of the terminating page that the loop appends: a short page's
product list is appended before the loop breaks; a failed page, a page with no
`'products'` key, and an empty page contribute nothing. -/
def pageTail {α : Type} : PageResp α → List α
  | some (some l) => l
  | _ => []

theorem get_all_products_paginatedAux_eq {α : Type} (fetch : Nat → PageResp α)
    (ps : Nat → List α) (k : Nat)
    (hterm : fetch k = none ∨ fetch k = some none ∨
      ∃ lst, fetch k = some (some lst) ∧ lst.length < 50) :
    ∀ fuel page acc, page ≤ k →
    (∀ i, page ≤ i → i < k → fetch i = some (some (ps i)) ∧ (ps i).length = 50) →
    k - page < fuel →
    get_all_products_paginatedAux fetch fuel acc page =
      acc ++ ((List.range' page (k - page)).map ps).flatten ++ pageTail (fetch k) := by
  intro fuel
  induction fuel with
  | zero => intro page acc _ _ hf; omega
  | succ n ih =>
    intro page acc hpk hfull hf
    rcases Nat.lt_or_ge page k with hlt | hge
    · -- a full page: recurse
      obtain ⟨hfetch, hlen⟩ := hfull page le_rfl hlt
      have hne : (ps page).isEmpty = false := by
        cases h : ps page with
        | nil => rw [h] at hlen; simp at hlen
        | cons a l => simp [h, List.isEmpty]
      have hnotshort : ¬ (ps page).length < 50 := by omega
      rw [get_all_products_paginatedAux, hfetch]
      simp only [hne, Bool.false_eq_true, if_false, hnotshort]
      rw [ih (page + 1) (acc ++ ps page) hlt
            (fun i h1 h2 => hfull i (by omega) h2) (by omega)]
      have hrange : List.range' page (k - page) = page :: List.range' (page + 1) (k - (page + 1)) := by
        have : k - page = (k - (page + 1)) + 1 := by omega
        rw [this, List.range'_succ]
      rw [hrange]
      simp [List.append_assoc]
    · -- the terminating page
      have hpage : page = k := by omega
      subst hpage
      have : page - page = 0 := by omega
      rw [this]
      simp only [List.range'_zero, List.map_nil, List.flatten_nil, List.append_nil]
      rcases hterm with h | h | ⟨lst, h, hshort⟩
      · rw [get_all_products_paginatedAux, h]; simp [pageTail]
      · rw [get_all_products_paginatedAux, h]; simp [pageTail]
      · rw [get_all_products_paginatedAux, h]
        simp only [pageTail]
        cases hl : lst with
        | nil => simp [hl]
        | cons a l =>
          have : lst.isEmpty = false := by rw [hl]; simp [List.isEmpty]
          rw [hl] at this hshort
          simp only [this, Bool.false_eq_true, if_false]
          rw [← hl] at this hshort ⊢
          simp [hshort]

/-- Claim C3: for every sequence of valid product JSON pages, pagination
returns the concatenation of all pages' product lists (the first `k - 1` full
pages followed by the short or empty page `k`), with no elements dropped, and
requests no page beyond the first short or empty page: the result only depends
on the responses of pages `1 … k`. -/
theorem get_all_products_paginated_spec {α : Type} (fetch : Nat → PageResp α)
    (ps : Nat → List α) (k fuel : Nat) (lst : List α)
    (hk : 1 ≤ k)
    (hfull : ∀ i, 1 ≤ i → i < k → fetch i = some (some (ps i)) ∧ (ps i).length = 50)
    (hterm : fetch k = some (some lst)) (hshort : lst.length < 50)
    (hfuel : k ≤ fuel) :
    get_all_products_paginated fetch fuel =
      ((List.range' 1 (k - 1)).map ps).flatten ++ lst ∧
    ∀ fetch' : Nat → PageResp α, (∀ i, i ≤ k → fetch' i = fetch i) →
      get_all_products_paginated fetch' fuel = get_all_products_paginated fetch fuel := by
  have hmain : get_all_products_paginated fetch fuel =
      ((List.range' 1 (k - 1)).map ps).flatten ++ lst := by
    unfold get_all_products_paginated
    rw [get_all_products_paginatedAux_eq fetch ps k
          (Or.inr (Or.inr ⟨lst, hterm, hshort⟩)) fuel 1 [] hk hfull (by omega)]
    rw [hterm]
    simp [pageTail]
  refine ⟨hmain, ?_⟩
  intro fetch' hagree
  have hterm' : fetch' k = some (some lst) := by rw [hagree k le_rfl]; exact hterm
  have hfull' : ∀ i, 1 ≤ i → i < k → fetch' i = some (some (ps i)) ∧ (ps i).length = 50 := by
    intro i h1 h2
    rw [hagree i (by omega)]
    exact hfull i h1 h2
  have hmain' : get_all_products_paginated fetch' fuel =
      ((List.range' 1 (k - 1)).map ps).flatten ++ lst := by
    unfold get_all_products_paginated
    rw [get_all_products_paginatedAux_eq fetch' ps k
          (Or.inr (Or.inr ⟨lst, hterm', hshort⟩)) fuel 1 [] hk hfull' (by omega)]
    rw [hterm']
    simp [pageTail]
  rw [hmain, hmain']

/-- Claim C3 witness: one full page of 50 products followed by a short page;
pagination returns both pages' products, and changing the response of page 3
does not change the result. -/
theorem get_all_products_paginated_spec_witness :
    get_all_products_paginated
        (fun i => if i = 1 then some (some (List.replicate 50 0)) else some (some [7])) 2 =
      List.replicate 50 0 ++ [7] ∧
    get_all_products_paginated
        (fun i => if i ≤ 2 then
          (if i = 1 then some (some (List.replicate 50 (0 : Nat))) else some (some [7]))
          else none) 2 =
      get_all_products_paginated
        (fun i => if i = 1 then some (some (List.replicate 50 0)) else some (some [7])) 2 := by
  have h := get_all_products_paginated_spec
    (fun i => if i = 1 then some (some (List.replicate 50 (0 : Nat))) else some (some [7]))
    (fun _ => List.replicate 50 0) 2 2 [7] (by omega)
    (fun i h1 h2 => by
      have : i = 1 := by omega
      subst this
      exact ⟨rfl, by simp⟩)
    (by simp) (by simp) (by omega)
  constructor
  · rw [h.1]; decide
  · exact h.2 _ (fun i hi => by simp [hi])

/-- Claim C10: when pagination hits a page whose fetch fails (no data) or
whose JSON lacks a `'products'` key, the loop returns the products accumulated
from the earlier pages — a partial catalog — rather than raising. -/
theorem get_all_products_paginated_partial {α : Type} (fetch : Nat → PageResp α)
    (ps : Nat → List α) (k fuel : Nat)
    (hk : 1 ≤ k)
    (hfull : ∀ i, 1 ≤ i → i < k → fetch i = some (some (ps i)) ∧ (ps i).length = 50)
    (hfail : fetch k = none ∨ fetch k = some none)
    (hfuel : k ≤ fuel) :
    get_all_products_paginated fetch fuel =
      ((List.range' 1 (k - 1)).map ps).flatten := by
  unfold get_all_products_paginated
  rw [get_all_products_paginatedAux_eq fetch ps k
        (by rcases hfail with h | h; exact Or.inl h; exact Or.inr (Or.inl h))
        fuel 1 [] hk hfull (by omega)]
  rcases hfail with h | h <;> rw [h] <;> simp [pageTail]

/-- Claim C10 witness: a full page of 50 products followed by a failed fetch;
pagination returns exactly the first page's products. -/
theorem get_all_products_paginated_partial_witness :
    get_all_products_paginated
        (fun i => if i = 1 then some (some (List.replicate 50 0)) else none) 2 =
      List.replicate 50 (0 : Nat) := by
  have h := get_all_products_paginated_partial
    (fun i => if i = 1 then some (some (List.replicate 50 (0 : Nat))) else none)
    (fun _ => List.replicate 50 0) 2 2 (by omega)
    (fun i h1 h2 => by
      have : i = 1 := by omega
      subst this
      exact ⟨rfl, by simp⟩)
    (Or.inl (by simp)) (by omega)
  rw [h]; decide

/-! ### Data model (`app/models/schemas.py`)

The pydantic models, with floats as exact rationals.  The `extracted_at` /
`analysis_date` wall-clock timestamps and the opaque raw `variants`
pass-through list are not modelled: no verified component reads them. -/

/-- `ProductModel` (schemas.py:17-30). -/
structure ProductModel where
  id : Option String
  title : String
  handle : Option String
  description : Option String
  price : Option ℚ
  compare_at_price : Option ℚ
  vendor : Option String
  product_type : Option String
  tags : List String
  images : List String
  url : Option String
  available : Option Bool
  deriving DecidableEq, Repr

/-- `ContactDetails` (schemas.py:33-37). -/
structure ContactDetails where
  emails : List String
  phone_numbers : List String
  address : Option String
  contact_page_url : Option String
  deriving DecidableEq, Repr

/-- `SocialHandles` (schemas.py:40-47). -/
structure SocialHandles where
  instagram : Option String
  facebook : Option String
  twitter : Option String
  tiktok : Option String
  youtube : Option String
  linkedin : Option String
  pinterest : Option String
  deriving DecidableEq, Repr

/-- `PolicyInfo` (schemas.py:50-55). -/
structure PolicyInfo where
  privacy_policy : Option String
  return_policy : Option String
  refund_policy : Option String
  terms_of_service : Option String
  shipping_policy : Option String
  deriving DecidableEq, Repr

/-- `FAQ` (schemas.py:58-61). -/
structure FAQ where
  question : String
  answer : String
  category : Option String
  deriving DecidableEq, Repr

/-- `ImportantLinks` (schemas.py:64-70). -/
structure ImportantLinks where
  order_tracking : Option String
  contact_us : Option String
  blog : Option String
  size_guide : Option String
  careers : Option String
  about_us : Option String
  deriving DecidableEq, Repr

/-- `BrandInsights` (schemas.py:73-87), without the `extracted_at` timestamp. -/
structure BrandInsights where
  brand_name : String
  website_url : String
  product_catalog : List ProductModel
  hero_products : List ProductModel
  contact_details : ContactDetails
  social_handles : SocialHandles
  policies : PolicyInfo
  faqs : List FAQ
  brand_context : Option String
  important_links : ImportantLinks
  total_products : Nat
  extraction_success : Bool
  errors : List String
  deriving DecidableEq, Repr

/-- Pydantic default `ContactDetails()`. -/
def contactDetailsDefault : ContactDetails := ⟨[], [], none, none⟩

/-- Pydantic default `SocialHandles()`. -/
def socialHandlesDefault : SocialHandles := ⟨none, none, none, none, none, none, none⟩

/-- Pydantic default `PolicyInfo()`. -/
def policyInfoDefault : PolicyInfo := ⟨none, none, none, none, none⟩

/-- Pydantic default `ImportantLinks()`. -/
def importantLinksDefault : ImportantLinks := ⟨none, none, none, none, none, none⟩

/-! ### `DataExtractor.extract_hero_products` (data_extractor.py:73-107) -/

/-- Scheme and authority of a URL (everything up to, and excluding, the first
`'/'` after `"://"`); used to model `urljoin(base_url, href)` for the
root-relative hrefs the hero extractor feeds it. -/
def schemeHostCore : List Char → List Char
  | [] => []
  | c :: cs =>
    if c = ':' ∧ cs.take 2 = ['/', '/'] then
      c :: '/' :: '/' :: (cs.drop 2).takeWhile (fun d => d ≠ '/')
    else c :: schemeHostCore cs

/-- `urljoin(base, href)` for an href starting with `'/'`. -/
def urljoinRootRel (base href : String) : String :=
  ⟨schemeHostCore base.data ++ href.data⟩

/-- Python `sub in s` on strings: whether `pat` occurs contiguously in `s`. -/
def containsSeq (pat : List Char) : List Char → Bool
  | [] => pat.isEmpty
  | c :: cs => pat.isPrefixOf (c :: cs) || containsSeq pat cs

/-- The homepage as seen by the hero extractor: the href attributes returned by
`soup.select(selector)` for each of the five product-link selectors
(data_extractor.py:82-97), in selector order. -/
structure HeroDoc where
  selectorLinks : List (List String)
  deriving Repr

/-- `DataExtractor.extract_hero_products`: collect homepage product links,
deduplicate them (`list(set(...))`, modelled as `List.dedup`), then keep the
catalog entries among the first 10 whose url is in the link set, truncated
to 6. -/
def extract_hero_products (doc : HeroDoc) (all_products : List ProductModel)
    (base_url : String) : List ProductModel :=
  let product_links :=
    doc.selectorLinks.flatMap (fun links =>
      links.filterMap (fun href =>
        if containsSeq "/products/".data href.data then
          some (if "/".data.isPrefixOf href.data then urljoinRootRel base_url href else href)
        else none))
  let product_links := product_links.dedup
  ((all_products.take 10).filter (fun p =>
    match p.url with
    | some u => u ∈ product_links
    | none => false)).take 6

/-- Claim C8: hero product selection returns at most 6 entries, every returned
entry is present in the original catalog, and only the first 10 catalog
entries (in catalog order) are considered for inclusion. -/
theorem extract_hero_products_spec (doc : HeroDoc) (all_products : List ProductModel)
    (base_url : String) :
    (extract_hero_products doc all_products base_url).length ≤ 6 ∧
    (∀ p ∈ extract_hero_products doc all_products base_url, p ∈ all_products) ∧
    (∀ p ∈ extract_hero_products doc all_products base_url, p ∈ all_products.take 10) := by
  refine ⟨List.length_take_le 6 _, ?_, ?_⟩
  · intro p hp
    have h1 := List.mem_of_mem_take hp
    have h2 := List.mem_of_mem_filter h1
    exact List.mem_of_mem_take h2
  · intro p hp
    have h1 := List.mem_of_mem_take hp
    exact List.mem_of_mem_filter h1

/-- Concrete homepage and one-product catalog for the hero witness. -/
def heroSampleProduct : ProductModel :=
  { id := none, title := "Sample", handle := some "a", description := none,
    price := some 10, compare_at_price := none, vendor := none,
    product_type := some "shoes", tags := [], images := [],
    url := some "https://s.com/products/a", available := some true }

/-- Claim C8 witness: with a homepage linking `/products/a` and a catalog
containing that product, the theorem's membership conclusions hold at the
concrete hero product. -/
theorem extract_hero_products_spec_witness :
    (extract_hero_products ⟨[["/products/a"]]⟩ [heroSampleProduct] "https://s.com").length ≤ 6 ∧
    heroSampleProduct ∈ [heroSampleProduct] := by
  refine ⟨(extract_hero_products_spec ⟨[["/products/a"]]⟩ [heroSampleProduct] "https://s.com").1, ?_⟩
  exact (extract_hero_products_spec ⟨[["/products/a"]]⟩ [heroSampleProduct] "https://s.com").2.1
    heroSampleProduct (by decide)


/-! ### `CompetitorAnalyzer._calculate_similarity` (compititor_analysis.py:261-317)

The four weighted components, computed over exact rationals.  The only
division whose denominator can be zero in the source (the price component's
`max(main_avg, competitor_avg)`, which raises `ZeroDivisionError` in Python
and is caught by the surrounding `except`, yielding `0.0`) is modelled in
`Except`; all other divisions are explicitly guarded in the source.
Python `max`, `abs` and `str.lower` are given explicit executable
definitions (`pyMaxQ`, `pyAbsQ`, `lowerStr`). -/

/-- Python `max(a, b)` on rationals. -/
def pyMaxQ (a b : ℚ) : ℚ := if a < b then b else a

/-- Python `abs` on rationals. -/
def pyAbsQ (q : ℚ) : ℚ := if q < 0 then -q else q

/-- Python `str.lower()` (ASCII case folding, character by character). -/
def lowerStr (s : String) : String := ⟨s.data.map Char.toLower⟩

theorem pyMaxQ_eq_max (a b : ℚ) : pyMaxQ a b = max a b := by
  unfold pyMaxQ
  split
  · exact (max_eq_right (le_of_lt (by assumption))).symm
  · exact (max_eq_left (le_of_not_lt (by assumption))).symm

theorem pyAbsQ_eq_abs (q : ℚ) : pyAbsQ q = |q| := by
  unfold pyAbsQ
  split
  · exact (abs_of_neg (by assumption)).symm
  · exact (abs_of_nonneg (le_of_not_lt (by assumption))).symm

/-- Python truthiness of an optional string (`None` and `""` are falsy). -/
def strTruthy : Option String → Bool
  | some s => s != ""
  | none => false

/-- Lowercased tag set of one product. -/
def lowerTagSet (p : ProductModel) : Finset String := (p.tags.map lowerStr).toFinset

/-- One iteration of the category-collection loop (compititor_analysis.py:270-273):
add the lowercased product type when truthy, then all lowercased tags. -/
def categoryStep (s : Finset String) (p : ProductModel) : Finset String :=
  (if strTruthy p.product_type then insert (lowerStr (p.product_type.getD "")) s else s) ∪
    lowerTagSet p

/-- Category sample of a brand: product types and tags of the first 50
catalog entries, lowercased. -/
def categorySet (b : BrandInsights) : Finset String :=
  (b.product_catalog.take 50).foldl categoryStep ∅

/-- Category-similarity contribution (40% weight): Jaccard index of the two
category samples when both are nonempty, else 0. -/
def categoryTerm (m c : BrandInsights) : ℚ :=
  if (categorySet m).Nonempty ∧ (categorySet c).Nonempty then
    (if 0 < (categorySet m ∪ categorySet c).card then
      ((categorySet m ∩ categorySet c).card : ℚ) / ((categorySet m ∪ categorySet c).card : ℚ)
    else 0) * (2 / 5)
  else 0

/-- Truthy prices of a catalog: `[p.price for p in catalog if p.price]`
(`None` and `0.0` are falsy). -/
def pricesOf (b : BrandInsights) : List ℚ :=
  b.product_catalog.filterMap fun p =>
    match p.price with
    | some q => if q ≠ 0 then some q else none
    | none => none

/-- Price-similarity contribution (30% weight):
`max(0, 1 - |avg_m - avg_c| / max(avg_m, avg_c))` when both sides have truthy
prices, else 0; a zero `max(avg_m, avg_c)` denominator raises
`ZeroDivisionError` in Python, modelled as `Except.error`.
`avgOf` is the average `sum(prices) / len(prices)`. -/
def avgOf (l : List ℚ) : ℚ := l.sum / (l.length : ℚ)

/-- Price-list guard and averages of `_calculate_similarity`
(compititor_analysis.py:287-295), with the averages via `avgOf`. -/
def priceTermE (m c : BrandInsights) : Except Unit ℚ :=
  if pricesOf m ≠ [] ∧ pricesOf c ≠ [] then
    if pyMaxQ (avgOf (pricesOf m)) (avgOf (pricesOf c)) = 0 then .error ()
    else .ok (pyMaxQ 0 (1 - pyAbsQ (avgOf (pricesOf m) - avgOf (pricesOf c)) /
      pyMaxQ (avgOf (pricesOf m)) (avgOf (pricesOf c))) * (3 / 10))
  else .ok 0

/-- Catalog-size contribution (20% weight): `min(count) / max(count)` over the
full catalogs when both are nonempty, else 0. -/
def countTerm (m c : BrandInsights) : ℚ :=
  if 0 < m.product_catalog.length ∧ 0 < c.product_catalog.length then
    ((min m.product_catalog.length c.product_catalog.length : ℕ) : ℚ) /
      ((max m.product_catalog.length c.product_catalog.length : ℕ) : ℚ) * (1 / 5)
  else 0

/-- Number of truthy fields of `social_handles.dict().values()`, in field
order. -/
def socialCount (b : BrandInsights) : Nat :=
  [b.social_handles.instagram, b.social_handles.facebook, b.social_handles.twitter,
   b.social_handles.tiktok, b.social_handles.youtube, b.social_handles.linkedin,
   b.social_handles.pinterest].countP strTruthy

/-- Social-presence contribution (10% weight):
`min(ms, cs) / max(ms, cs, 1)` when either side has a truthy social field,
else 0. -/
def socialTerm (m c : BrandInsights) : ℚ :=
  if 0 < socialCount m ∨ 0 < socialCount c then
    ((min (socialCount m) (socialCount c) : ℕ) : ℚ) /
      ((max (max (socialCount m) (socialCount c)) 1 : ℕ) : ℚ) * (1 / 10)
  else 0

/-- Python `round(x, 3)`. -/
def round3 (q : ℚ) : ℚ := ((round (q * 1000) : ℤ) : ℚ) / 1000

/-- Body of `_calculate_similarity` inside the `try`: sum the four weighted
contributions (starting from `0.0`, in source order) and round to 3 decimal
places; the price step may raise. -/
def calculateSimilarityE (m c : BrandInsights) : Except Unit ℚ :=
  match priceTermE m c with
  | .error e => .error e
  | .ok p => .ok (round3 ((((0 : ℚ) + categoryTerm m c) + p + countTerm m c) + socialTerm m c))

/-- `CompetitorAnalyzer._calculate_similarity`: the `try`/`except` wrapper —
any internal error yields `0.0`. -/
def calculate_similarity (m c : BrandInsights) : ℚ :=
  match calculateSimilarityE m c with
  | .ok s => s
  | .error _ => 0

/-- Sample brand insight whose single product (type `"shoes"`, no tags, no
social links) has the given price. -/
def shoesInsight (q : ℚ) : BrandInsights :=
  { brand_name := "B", website_url := "https://b.com",
    product_catalog :=
      [{ id := none, title := "Shoe", handle := none, description := none,
         price := some q, compare_at_price := none, vendor := none,
         product_type := some "shoes", tags := [], images := [], url := none,
         available := none }],
    hero_products := [], contact_details := contactDetailsDefault,
    social_handles := socialHandlesDefault, policies := policyInfoDefault,
    faqs := [], brand_context := none, important_links := importantLinksDefault,
    total_products := 1, extraction_success := true, errors := [] }

theorem categorySet_shoesInsight (q : ℚ) : categorySet (shoesInsight q) = {"shoes"} := by
  show categoryStep ∅ _ = {"shoes"}
  rw [categoryStep]
  norm_num [strTruthy, lowerTagSet, shoesInsight]
  decide

/-- Claim C1 counterexample: two insights whose products carry negative prices
(`ProductModel.price` is an unconstrained float) produce a similarity score of
1.2, outside [0,1]: with both averages negative, `price_diff` is negative and
`max(0, 1 - price_diff)` reaches 2. -/
theorem calculate_similarity_counterexample :
    calculate_similarity (shoesInsight (-10)) (shoesInsight (-20)) = 6 / 5 ∧
    ¬ calculate_similarity (shoesInsight (-10)) (shoesInsight (-20)) ≤ 1 := by
  have hcat : categoryTerm (shoesInsight (-10)) (shoesInsight (-20)) = 2 / 5 := by
    rw [categoryTerm]
    rw [categorySet_shoesInsight, categorySet_shoesInsight]
    norm_num
  have hpm : pricesOf (shoesInsight (-10)) = [(-10 : ℚ)] := by
    rw [pricesOf]
    norm_num [shoesInsight, List.filterMap_cons]
  have hpc : pricesOf (shoesInsight (-20)) = [(-20 : ℚ)] := by
    rw [pricesOf]
    norm_num [shoesInsight, List.filterMap_cons]
  have hprice : priceTermE (shoesInsight (-10)) (shoesInsight (-20)) =
      .ok (3 / 5) := by
    rw [priceTermE, hpm, hpc]
    norm_num [avgOf, pyMaxQ, pyAbsQ]
  have hcount : countTerm (shoesInsight (-10)) (shoesInsight (-20)) = 1 / 5 := by
    norm_num [countTerm, shoesInsight]
  have hsocial : socialTerm (shoesInsight (-10)) (shoesInsight (-20)) = 0 := by
    norm_num [socialTerm, socialCount, strTruthy, shoesInsight, socialHandlesDefault]
  have hsum : calculate_similarity (shoesInsight (-10)) (shoesInsight (-20)) =
      round3 (6 / 5) := by
    rw [calculate_similarity, calculateSimilarityE, hprice, hcat, hcount, hsocial]
    norm_num
  have hr : round3 ((6 : ℚ) / 5) = 6 / 5 := by
    rw [round3, show (6 / 5 : ℚ) * 1000 = ((1200 : ℤ) : ℚ) by norm_num, round_intCast]
    norm_num
  rw [hsum, hr]
  norm_num

theorem round_le_of_le {x y : ℚ} (h : x ≤ y) : round x ≤ round y := by
  rw [round_eq, round_eq]
  exact Int.floor_le_floor (by linarith)

theorem round3_bounds {q : ℚ} (h0 : 0 ≤ q) (h1 : q ≤ 1) :
    0 ≤ round3 q ∧ round3 q ≤ 1 := by
  have hlo : (0 : ℤ) ≤ round (q * 1000) := by
    have h := round_le_of_le (x := 0) (y := q * 1000) (by nlinarith)
    simpa [round_zero] using h
  have hhi : round (q * 1000) ≤ 1000 := by
    have h := round_le_of_le (x := q * 1000) (y := ((1000 : ℤ) : ℚ)) (by push_cast; nlinarith)
    rwa [round_intCast] at h
  constructor
  · unfold round3
    apply div_nonneg _ (by norm_num)
    exact_mod_cast hlo
  · unfold round3
    rw [div_le_one (by norm_num)]
    exact_mod_cast hhi

theorem categoryTerm_bounds (m c : BrandInsights) :
    0 ≤ categoryTerm m c ∧ categoryTerm m c ≤ 2 / 5 := by
  unfold categoryTerm
  split_ifs with h1 h2
  · have hsub : categorySet m ∩ categorySet c ⊆ categorySet m ∪ categorySet c :=
      Finset.inter_subset_left.trans Finset.subset_union_left
    have hcard := Finset.card_le_card hsub
    have hU : (0 : ℚ) < ((categorySet m ∪ categorySet c).card : ℚ) := by exact_mod_cast h2
    have hr0 : (0 : ℚ) ≤ ((categorySet m ∩ categorySet c).card : ℚ) /
        ((categorySet m ∪ categorySet c).card : ℚ) := by positivity
    have hr1 : ((categorySet m ∩ categorySet c).card : ℚ) /
        ((categorySet m ∪ categorySet c).card : ℚ) ≤ 1 := by
      rw [div_le_one hU]; exact_mod_cast hcard
    constructor <;> nlinarith
  · norm_num
  · norm_num

theorem pricesOf_pos (b : BrandInsights)
    (h : ∀ p ∈ b.product_catalog, ∀ q, p.price = some q → 0 ≤ q) :
    ∀ q ∈ pricesOf b, 0 < q := by
  intro q hq
  rw [pricesOf, List.mem_filterMap] at hq
  obtain ⟨p, hp, hpq⟩ := hq
  cases hpr : p.price with
  | none => rw [hpr] at hpq; simp at hpq
  | some r =>
    rw [hpr] at hpq
    by_cases hr : r = 0
    · simp [hr] at hpq
    · simp [hr] at hpq
      have hnn := h p hp r hpr
      rw [← hpq]
      exact lt_of_le_of_ne hnn (Ne.symm hr)

theorem avgOf_pos {l : List ℚ} (hl : l ≠ []) (hpos : ∀ q ∈ l, 0 < q) :
    0 < avgOf l := by
  have hlen : 0 < (l.length : ℚ) := by
    have hx : 0 < l.length := List.length_pos.mpr hl
    exact_mod_cast hx
  have hsum : 0 < l.sum := List.sum_pos l hpos hl
  unfold avgOf
  positivity

theorem priceTermE_bounds (m c : BrandInsights)
    (hm : ∀ q ∈ pricesOf m, 0 < q) (hc : ∀ q ∈ pricesOf c, 0 < q) :
    ∃ p, priceTermE m c = .ok p ∧ 0 ≤ p ∧ p ≤ 3 / 10 := by
  by_cases h1 : pricesOf m ≠ [] ∧ pricesOf c ≠ []
  · have hma := avgOf_pos h1.1 hm
    have hca := avgOf_pos h1.2 hc
    have hmax : 0 < pyMaxQ (avgOf (pricesOf m)) (avgOf (pricesOf c)) := by
      rw [pyMaxQ_eq_max]; exact lt_max_of_lt_left hma
    rw [priceTermE, if_pos h1, if_neg (by exact ne_of_gt hmax)]
    have hd : 0 ≤ pyAbsQ (avgOf (pricesOf m) - avgOf (pricesOf c)) /
        pyMaxQ (avgOf (pricesOf m)) (avgOf (pricesOf c)) := by
      apply div_nonneg _ (le_of_lt hmax)
      rw [pyAbsQ_eq_abs]; exact abs_nonneg _
    have hval0 : 0 ≤ pyMaxQ 0 (1 - pyAbsQ (avgOf (pricesOf m) - avgOf (pricesOf c)) /
        pyMaxQ (avgOf (pricesOf m)) (avgOf (pricesOf c))) := by
      rw [pyMaxQ_eq_max]; exact le_max_left 0 _
    have hval1 : pyMaxQ 0 (1 - pyAbsQ (avgOf (pricesOf m) - avgOf (pricesOf c)) /
        pyMaxQ (avgOf (pricesOf m)) (avgOf (pricesOf c))) ≤ 1 := by
      rw [pyMaxQ_eq_max]
      apply max_le (by norm_num) (by linarith)
    exact ⟨_, rfl, by nlinarith, by nlinarith⟩
  · rw [priceTermE, if_neg h1]
    exact ⟨0, rfl, le_refl 0, by norm_num⟩

theorem countTerm_bounds (m c : BrandInsights) :
    0 ≤ countTerm m c ∧ countTerm m c ≤ 1 / 5 := by
  unfold countTerm
  split_ifs with h
  · have hmax : (0 : ℚ) < ((max m.product_catalog.length c.product_catalog.length : ℕ) : ℚ) := by
      have hx : 0 < max m.product_catalog.length c.product_catalog.length := by omega
      exact_mod_cast hx
    have hmin : ((min m.product_catalog.length c.product_catalog.length : ℕ) : ℚ) ≤
        ((max m.product_catalog.length c.product_catalog.length : ℕ) : ℚ) := by
      exact_mod_cast min_le_max
    have hr0 : (0 : ℚ) ≤ ((min m.product_catalog.length c.product_catalog.length : ℕ) : ℚ) /
        ((max m.product_catalog.length c.product_catalog.length : ℕ) : ℚ) := by positivity
    have hr1 : ((min m.product_catalog.length c.product_catalog.length : ℕ) : ℚ) /
        ((max m.product_catalog.length c.product_catalog.length : ℕ) : ℚ) ≤ 1 := by
      rw [div_le_one hmax]; exact hmin
    constructor <;> nlinarith
  · norm_num

theorem socialTerm_bounds (m c : BrandInsights) :
    0 ≤ socialTerm m c ∧ socialTerm m c ≤ 1 / 10 := by
  unfold socialTerm
  split_ifs with h
  · have hmax : (0 : ℚ) < ((max (max (socialCount m) (socialCount c)) 1 : ℕ) : ℚ) := by
      have hx : 0 < max (max (socialCount m) (socialCount c)) 1 := by omega
      exact_mod_cast hx
    have hmin : ((min (socialCount m) (socialCount c) : ℕ) : ℚ) ≤
        ((max (max (socialCount m) (socialCount c)) 1 : ℕ) : ℚ) := by
      have hx : min (socialCount m) (socialCount c) ≤
          max (max (socialCount m) (socialCount c)) 1 := by omega
      exact_mod_cast hx
    have hr0 : (0 : ℚ) ≤ ((min (socialCount m) (socialCount c) : ℕ) : ℚ) /
        ((max (max (socialCount m) (socialCount c)) 1 : ℕ) : ℚ) := by positivity
    have hr1 : ((min (socialCount m) (socialCount c) : ℕ) : ℚ) /
        ((max (max (socialCount m) (socialCount c)) 1 : ℕ) : ℚ) ≤ 1 := by
      rw [div_le_one hmax]; exact hmin
    constructor <;> nlinarith
  · norm_num

/-- Claim C1 (amended): for every pair of BrandInsight records whose product
prices are all nonnegative, the similarity scorer returns a rational in
[0,1] that is an integer multiple of 1/1000 (the 3-decimal rounding), and —
for arbitrary inputs — any internal computation error is mapped to 0.0 by the
`except` wrapper instead of propagating. -/
theorem calculate_similarity_bounds (m c : BrandInsights)
    (hm : ∀ p ∈ m.product_catalog, ∀ q, p.price = some q → 0 ≤ q)
    (hc : ∀ p ∈ c.product_catalog, ∀ q, p.price = some q → 0 ≤ q) :
    (0 ≤ calculate_similarity m c ∧ calculate_similarity m c ≤ 1 ∧
      ∃ z : ℤ, calculate_similarity m c = (z : ℚ) / 1000) ∧
    (∀ m' c' : BrandInsights, ∀ e, calculateSimilarityE m' c' = .error e →
      calculate_similarity m' c' = 0) := by
  obtain ⟨p, hp, hp0, hp3⟩ := priceTermE_bounds m c (pricesOf_pos m hm) (pricesOf_pos c hc)
  have hval : calculate_similarity m c =
      round3 ((((0 : ℚ) + categoryTerm m c) + p + countTerm m c) + socialTerm m c) := by
    rw [calculate_similarity, calculateSimilarityE, hp]
  obtain ⟨hg0, hg2⟩ := categoryTerm_bounds m c
  obtain ⟨hn0, hn2⟩ := countTerm_bounds m c
  obtain ⟨hs0, hs2⟩ := socialTerm_bounds m c
  have hsum0 : 0 ≤ (((0 : ℚ) + categoryTerm m c) + p + countTerm m c) + socialTerm m c := by
    linarith
  have hsum1 : (((0 : ℚ) + categoryTerm m c) + p + countTerm m c) + socialTerm m c ≤ 1 := by
    linarith
  obtain ⟨hr0, hr1⟩ := round3_bounds hsum0 hsum1
  refine ⟨⟨by rw [hval]; exact hr0, by rw [hval]; exact hr1, ?_⟩, ?_⟩
  · exact ⟨round (((((0 : ℚ) + categoryTerm m c) + p + countTerm m c) + socialTerm m c) * 1000),
      by rw [hval]; rfl⟩
  · intro m' c' e he
    rw [calculate_similarity, he]

/-- Claim C1 witness: the amended theorem applied at two concrete insights
with positive prices. -/
theorem calculate_similarity_bounds_witness :
    0 ≤ calculate_similarity (shoesInsight 10) (shoesInsight 20) ∧
    calculate_similarity (shoesInsight 10) (shoesInsight 20) ≤ 1 := by
  have hm : ∀ p ∈ (shoesInsight 10).product_catalog, ∀ q, p.price = some q → 0 ≤ q := by
    intro p hp q hq
    simp only [shoesInsight, List.mem_singleton] at hp
    subst hp
    simp only [Option.some.injEq] at hq
    rw [← hq]
    norm_num
  have hc : ∀ p ∈ (shoesInsight 20).product_catalog, ∀ q, p.price = some q → 0 ≤ q := by
    intro p hp q hq
    simp only [shoesInsight, List.mem_singleton] at hp
    subst hp
    simp only [Option.some.injEq] at hq
    rw [← hq]
    norm_num
  have h := calculate_similarity_bounds (shoesInsight 10) (shoesInsight 20) hm hc
  exact ⟨h.1.1, h.1.2.1⟩

/-- Claim C9: the category-similarity component and the catalog-size
component of the similarity score are symmetric: swapping the two insights
leaves each contribution unchanged. -/
theorem similarity_components_symm (m c : BrandInsights) :
    categoryTerm m c = categoryTerm c m ∧ countTerm m c = countTerm c m := by
  constructor
  · by_cases h1 : (categorySet m).Nonempty <;> by_cases h2 : (categorySet c).Nonempty <;>
      simp [categoryTerm, h1, h2, Finset.inter_comm, Finset.union_comm]
  · by_cases h1 : 0 < m.product_catalog.length <;>
      by_cases h2 : 0 < c.product_catalog.length <;>
      simp [countTerm, h1, h2, min_comm, max_comm]

/-! ### Regular-expression matching model (for scraper.py:117-170)

A pattern is a sequence of items over character classes.  `matchSeq` is a
backtracking matcher anchored at the start of the input, with Python's greedy
semantics: an optional item first tries to consume, and falls back to the
empty alternative when the rest of the pattern fails.  A bounded greedy
repetition `{m,n}` is represented as `m` required items (`one`) followed by
`n - m` greedy optional items (`opt`) of the same class, which explores the
same consumption counts in the same greedy order.  `prev` carries the
character preceding the current position, for the `\b` word-boundary
assertion. -/

/-- Character classes appearing in the scraper's regular expressions. -/
inductive CClass
  | digit
  | chLit (a : Char)
  | sepCls
  | wsCls
  | emailLocal
  | emailDomain
  | alphaBar
  | handleCls
  deriving DecidableEq, Repr

/-- Membership test of each class: `[0-9]`, a literal character, `[-.\s]`,
`[\s]`, `[A-Za-z0-9._%+-]`, `[A-Za-z0-9.-]`, `[A-Z|a-z]` (the source class
literally contains `'|'`), and `[^/\s?&]`. -/
def CClass.test : CClass → Char → Bool
  | .digit, c => c.isDigit
  | .chLit a, c => c = a
  | .sepCls, c => c = '-' || c = '.' || pyWS c
  | .wsCls, c => pyWS c
  | .emailLocal, c => c.isAlphanum || c = '.' || c = '_' || c = '%' || c = '+' || c = '-'
  | .emailDomain, c => c.isAlphanum || c = '.' || c = '-'
  | .alphaBar, c => c.isAlpha || c = '|'
  | .handleCls, c => !(c = '/' || pyWS c || c = '?' || c = '&')

/-- Pattern items: one mandatory class character, one greedy optional class
character, a literal character sequence, and the `\b` assertion. -/
inductive RegItem
  | one (c : CClass)
  | opt (c : CClass)
  | lit (cs : List Char)
  | wordB
  deriving DecidableEq, Repr

/-- Regex word character `\w` (ASCII). -/
def isWordCh (c : Char) : Bool := c.isAlphanum || c = '_'

/-- Word-character test of an optional context character (`none` = outside the
string). -/
def wordOpt : Option Char → Bool
  | some c => isWordCh c
  | none => false

/-- Anchored greedy backtracking match: returns the consumed characters. -/
def matchSeq : List RegItem → Option Char → List Char → Option (List Char)
  | [], _, _ => some []
  | .one _ :: _, _, [] => none
  | .one c :: items, _, ch :: s =>
    if c.test ch then (matchSeq items (some ch) s).map (fun m => ch :: m) else none
  | .opt _ :: items, prev, [] => matchSeq items prev []
  | .opt c :: items, prev, ch :: s =>
    if c.test ch then
      match matchSeq items (some ch) s with
      | some m => some (ch :: m)
      | none => matchSeq items prev (ch :: s)
    else matchSeq items prev (ch :: s)
  | .lit cs :: items, prev, s =>
    if cs.isPrefixOf s then
      (matchSeq items (cs.getLast?.or prev) (s.drop cs.length)).map (fun m => cs ++ m)
    else none
  | .wordB :: items, prev, s =>
    if wordOpt prev != wordOpt s.head? then matchSeq items prev s else none

/-- `re.search` as a Boolean: does the pattern match at some position?  Scans
positions left to right, carrying the previous character. -/
def research (pat : List RegItem) : Option Char → List Char → Bool
  | prev, [] => (matchSeq pat prev []).isSome
  | prev, ch :: s => (matchSeq pat prev (ch :: s)).isSome || research pat (some ch) s

/-- `re.findall` (for patterns without capture groups): leftmost
non-overlapping matches, resuming after each match.  The pattern may depend on
the remaining input length (used to bound unbounded repetitions); the fuel
starts at `length + 1` and each step consumes at least one character.  The
patterns used here contain a mandatory item, so no match is empty and no match
starts at the end-of-string position. -/
def refindallAux (pat : Nat → List RegItem) :
    Nat → Option Char → List Char → List (List Char)
  | 0, _, _ => []
  | _ + 1, _, [] => []
  | fuel + 1, prev, ch :: s =>
    match matchSeq (pat (s.length + 1)) prev (ch :: s) with
    | some [] => refindallAux pat fuel (some ch) s
    | some (m0 :: m) =>
      (m0 :: m) :: refindallAux pat fuel ((m0 :: m).getLast?.or prev)
        ((ch :: s).drop (m0 :: m).length)
    | none => refindallAux pat fuel (some ch) s

/-- `re.findall pat s`. -/
def refindall (pat : Nat → List RegItem) (s : List Char) : List (List Char) :=
  refindallAux pat (s.length + 1) none s

theorem mem_refindallAux {pat : Nat → List RegItem} :
    ∀ (fuel : Nat) (prev : Option Char) (s m : List Char),
      m ∈ refindallAux pat fuel prev s →
      ∃ prev' s', matchSeq (pat s'.length) prev' s' = some m := by
  intro fuel
  induction fuel with
  | zero => intro prev s m h; simp [refindallAux] at h
  | succ n ih =>
    intro prev s m h
    cases s with
    | nil => simp [refindallAux] at h
    | cons ch s' =>
      rw [refindallAux] at h
      cases hm : matchSeq (pat (s'.length + 1)) prev (ch :: s') with
      | none => rw [hm] at h; exact ih _ _ _ h
      | some mm =>
        cases mm with
        | nil => rw [hm] at h; exact ih _ _ _ h
        | cons m0 mrest =>
          rw [hm] at h
          rcases List.mem_cons.mp h with heq | htail
          · subst heq
            exact ⟨prev, ch :: s', by simpa using hm⟩
          · exact ih _ _ _ htail

/-! ### Digit-count bounds for matches -/

/-- Number of digit characters of a string (its digit count after stripping
non-digit characters). -/
def digitCount (cs : List Char) : Nat := (cs.filter Char.isDigit).length

/-- Classes that only accept digit characters. -/
def CClass.digitOnly : CClass → Bool
  | .digit => true
  | .chLit a => a.isDigit
  | _ => false

/-- Classes that accept no digit character. -/
def CClass.digitFree : CClass → Bool
  | .chLit a => !a.isDigit
  | .sepCls => true
  | .wsCls => true
  | .alphaBar => true
  | _ => false

theorem pyWS_not_digit {ch : Char} (h : pyWS ch = true) : ch.isDigit = false := by
  simp [pyWS] at h
  rcases h with ((((h | h) | h) | h) | h) | h <;> subst h <;> decide

theorem isAlpha_not_digit {ch : Char} (h : ch.isAlpha = true) : ch.isDigit = false := by
  rw [Bool.eq_false_iff]
  intro hd
  simp only [Char.isAlpha, Char.isUpper, Char.isLower, Char.isDigit, Bool.or_eq_true,
    Bool.and_eq_true, decide_eq_true_eq, ge_iff_le, UInt32.le_def, BitVec.le_def] at h hd
  rcases h with ⟨h1, h2⟩ | ⟨h1, h2⟩ <;>
    · obtain ⟨hd1, hd2⟩ := hd
      simp at h1 h2 hd1 hd2
      omega

theorem digitOnly_test {c : CClass} {ch : Char} (h1 : c.digitOnly = true)
    (h2 : c.test ch = true) : ch.isDigit = true := by
  cases c with
  | digit => exact h2
  | chLit a =>
    simp [CClass.test] at h2
    subst h2
    simpa [CClass.digitOnly] using h1
  | sepCls => simp [CClass.digitOnly] at h1
  | wsCls => simp [CClass.digitOnly] at h1
  | emailLocal => simp [CClass.digitOnly] at h1
  | emailDomain => simp [CClass.digitOnly] at h1
  | alphaBar => simp [CClass.digitOnly] at h1
  | handleCls => simp [CClass.digitOnly] at h1

theorem digitFree_test {c : CClass} {ch : Char} (h1 : c.digitFree = true)
    (h2 : c.test ch = true) : ch.isDigit = false := by
  cases c with
  | digit => simp [CClass.digitFree] at h1
  | chLit a =>
    simp [CClass.test] at h2
    subst h2
    simpa [CClass.digitFree] using h1
  | sepCls =>
    simp [CClass.test] at h2
    rcases h2 with (h | h) | h
    · subst h; decide
    · subst h; decide
    · exact pyWS_not_digit h
  | wsCls => exact pyWS_not_digit h2
  | emailLocal => simp [CClass.digitFree] at h1
  | emailDomain => simp [CClass.digitFree] at h1
  | alphaBar =>
    simp [CClass.test] at h2
    rcases h2 with h | h
    · exact isAlpha_not_digit h
    · subst h; decide
  | handleCls => simp [CClass.digitFree] at h1

/-- Fewest digits an item can contribute to a match. -/
def itemMinDigits : RegItem → Nat
  | .one c => if c.digitOnly then 1 else 0
  | .opt _ => 0
  | .lit cs => digitCount cs
  | .wordB => 0

/-- Most digits an item can contribute to a match. -/
def itemMaxDigits : RegItem → Nat
  | .one c => if c.digitFree then 0 else 1
  | .opt c => if c.digitFree then 0 else 1
  | .lit cs => digitCount cs
  | .wordB => 0

/-- Fewest digits a pattern can match. -/
def minDigits (items : List RegItem) : Nat := (items.map itemMinDigits).sum

/-- Most digits a pattern can match. -/
def maxDigits (items : List RegItem) : Nat := (items.map itemMaxDigits).sum

theorem digitCount_cons (ch : Char) (l : List Char) :
    digitCount (ch :: l) = (if ch.isDigit then 1 else 0) + digitCount l := by
  by_cases hd : ch.isDigit = true
  · simp [digitCount, List.filter_cons, hd]
    omega
  · simp [digitCount, List.filter_cons, hd]

theorem digitCount_append (l1 l2 : List Char) :
    digitCount (l1 ++ l2) = digitCount l1 + digitCount l2 := by
  simp [digitCount, List.filter_append]

theorem indicator_bounds_of_test {c : CClass} {ch : Char} (hc : c.test ch = true) :
    (if c.digitOnly then (1 : Nat) else 0) ≤ (if ch.isDigit then 1 else 0) ∧
    (if ch.isDigit then (1 : Nat) else 0) ≤ (if c.digitFree then 0 else 1) := by
  constructor
  · by_cases hdo : c.digitOnly = true
    · rw [if_pos hdo, digitOnly_test hdo hc]
      simp
    · rw [if_neg hdo]
      exact Nat.zero_le _
  · by_cases hdf : c.digitFree = true
    · rw [if_pos hdf, digitFree_test hdf hc]
      simp
    · rw [if_neg hdf]
      split <;> omega

theorem matchSeq_digits :
    ∀ (items : List RegItem) (prev : Option Char) (s m : List Char),
      matchSeq items prev s = some m →
      minDigits items ≤ digitCount m ∧ digitCount m ≤ maxDigits items := by
  intro items
  induction items with
  | nil =>
    intro prev s m h
    simp [matchSeq] at h
    subst h
    simp [minDigits, maxDigits, digitCount]
  | cons it rest ih =>
    intro prev s m h
    cases it with
    | one c =>
      cases s with
      | nil => simp [matchSeq] at h
      | cons ch s' =>
        rw [matchSeq] at h
        by_cases hc : c.test ch = true
        · rw [if_pos hc] at h
          rcases Option.map_eq_some'.mp h with ⟨m', hm', rfl⟩
          obtain ⟨hlo, hhi⟩ := ih (some ch) s' m' hm'
          obtain ⟨hi1, hi2⟩ := indicator_bounds_of_test hc
          rw [digitCount_cons]
          constructor
          · simp only [minDigits, List.map_cons, List.sum_cons, itemMinDigits] at *
            omega
          · simp only [maxDigits, List.map_cons, List.sum_cons, itemMaxDigits] at *
            omega
        · rw [if_neg hc] at h
          exact absurd h (by simp)
    | opt c =>
      have hstep : ∀ prev' s', matchSeq rest prev' s' = some m →
          minDigits (RegItem.opt c :: rest) ≤ digitCount m ∧
          digitCount m ≤ maxDigits (RegItem.opt c :: rest) := by
        intro prev' s' h'
        obtain ⟨hlo, hhi⟩ := ih prev' s' m h'
        constructor
        · simp only [minDigits, List.map_cons, List.sum_cons, itemMinDigits] at *
          omega
        · simp only [maxDigits, List.map_cons, List.sum_cons, itemMaxDigits] at *
          split <;> omega
      cases s with
      | nil =>
        rw [matchSeq] at h
        exact hstep prev [] h
      | cons ch s' =>
        rw [matchSeq] at h
        by_cases hc : c.test ch = true
        · rw [if_pos hc] at h
          cases hrec : matchSeq rest (some ch) s' with
          | some m' =>
            rw [hrec] at h
            injection h with h
            subst h
            obtain ⟨hlo, hhi⟩ := ih (some ch) s' m' hrec
            obtain ⟨hi1, hi2⟩ := indicator_bounds_of_test hc
            rw [digitCount_cons]
            constructor
            · simp only [minDigits, List.map_cons, List.sum_cons, itemMinDigits] at *
              omega
            · simp only [maxDigits, List.map_cons, List.sum_cons, itemMaxDigits] at *
              omega
          | none =>
            rw [hrec] at h
            exact hstep prev (ch :: s') h
        · rw [if_neg hc] at h
          exact hstep prev (ch :: s') h
    | lit cs =>
      rw [matchSeq] at h
      by_cases hpre : cs.isPrefixOf s = true
      · rw [if_pos hpre] at h
        rcases Option.map_eq_some'.mp h with ⟨m', hm', rfl⟩
        obtain ⟨hlo, hhi⟩ := ih _ _ m' hm'
        rw [digitCount_append]
        constructor
        · simp only [minDigits, List.map_cons, List.sum_cons, itemMinDigits] at *
          omega
        · simp only [maxDigits, List.map_cons, List.sum_cons, itemMaxDigits] at *
          omega
      · rw [if_neg hpre] at h
        exact absurd h (by simp)
    | wordB =>
      rw [matchSeq] at h
      by_cases hb : (wordOpt prev != wordOpt s.head?) = true
      · rw [if_pos hb] at h
        obtain ⟨hlo, hhi⟩ := ih prev s m h
        constructor
        · simp only [minDigits, List.map_cons, List.sum_cons, itemMinDigits] at *
          omega
        · simp only [maxDigits, List.map_cons, List.sum_cons, itemMaxDigits] at *
          omega
      · rw [if_neg hb] at h
        exact absurd h (by simp)

/-! ### `WebScraper.extract_contact_info` (scraper.py:147-170) -/

/-- Phone pattern `r'\+?1?[-.\s]?\(?[0-9]{3}\)?[-.\s]?[0-9]{3}[-.\s]?[0-9]{4}'`
(US format). -/
def phoneUS : List RegItem :=
  [.opt (.chLit '+'), .opt (.chLit '1'), .opt .sepCls, .opt (.chLit '(')] ++
  List.replicate 3 (.one .digit) ++ [.opt (.chLit ')'), .opt .sepCls] ++
  List.replicate 3 (.one .digit) ++ [.opt .sepCls] ++ List.replicate 4 (.one .digit)

/-- Phone pattern
`r'\+?[0-9]{1,4}[-.\s]?[0-9]{3,4}[-.\s]?[0-9]{3,4}[-.\s]?[0-9]{3,4}'`
(international): `{1,4}` is one mandatory digit plus three greedy optional
digits, `{3,4}` three mandatory digits plus one greedy optional digit. -/
def phoneIntl : List RegItem :=
  [.opt (.chLit '+'), .one .digit] ++ List.replicate 3 (.opt .digit) ++ [.opt .sepCls] ++
  (List.replicate 3 (.one .digit) ++ [.opt .digit]) ++ [.opt .sepCls] ++
  (List.replicate 3 (.one .digit) ++ [.opt .digit]) ++ [.opt .sepCls] ++
  (List.replicate 3 (.one .digit) ++ [.opt .digit])

/-- Phone pattern `r'\([0-9]{3}\)\s?[0-9]{3}-?[0-9]{4}'` ((xxx) xxx-xxxx). -/
def phoneParen : List RegItem :=
  [.one (.chLit '(')] ++ List.replicate 3 (.one .digit) ++ [.one (.chLit ')'), .opt .wsCls] ++
  List.replicate 3 (.one .digit) ++ [.opt (.chLit '-')] ++ List.replicate 4 (.one .digit)

/-- Email pattern `r'\b[A-Za-z0-9._%+-]+@[A-Za-z0-9.-]+\.[A-Z|a-z]{2,}\b'`
(scraper.py:154); the two `+` repetitions and `{2,}` are bounded by the input
length `n`, which never constrains a match. -/
def emailPat (n : Nat) : List RegItem :=
  [.wordB, .one .emailLocal] ++ List.replicate n (.opt .emailLocal) ++
  [.one (.chLit '@'), .one .emailDomain] ++ List.replicate n (.opt .emailDomain) ++
  [.one (.chLit '.'), .one .alphaBar, .one .alphaBar] ++ List.replicate n (.opt .alphaBar) ++
  [.wordB]

/-- The email findall of `extract_contact_info`, deduplicated with
`list(set(emails))` (Python set iteration order is unspecified; `List.dedup`
keeps one occurrence of each element). -/
def contactEmails (text : List Char) : List (List Char) :=
  (refindall emailPat text).dedup

/-- The phone part of `extract_contact_info`: the three findalls extended in
pattern order, each match stripped and kept when its stripped length is at
least 10, then `list(set(...))` deduplication. -/
def contactPhones (text : List Char) : List (List Char) :=
  (((refindall (fun _ => phoneUS) text ++ refindall (fun _ => phoneIntl) text ++
    refindall (fun _ => phoneParen) text).map pyStrip).filter
      (fun p => 10 ≤ p.length)).dedup

/-- Result dictionary of `extract_contact_info` (the `addresses` key is never
filled by the source and is omitted). -/
structure ContactInfoRaw where
  emails : List (List Char)
  phones : List (List Char)
  deriving DecidableEq, Repr

/-- `WebScraper.extract_contact_info` on the page's flattened text. -/
def extract_contact_info (text : List Char) : ContactInfoRaw :=
  { emails := contactEmails text, phones := contactPhones text }

theorem digitCount_dropWhile_pyWS (l : List Char) :
    digitCount (l.dropWhile pyWS) = digitCount l := by
  induction l with
  | nil => rfl
  | cons ch l ih =>
    by_cases h : pyWS ch = true
    · rw [List.dropWhile_cons_of_pos h, ih, digitCount_cons, pyWS_not_digit h]
      simp
    · rw [List.dropWhile_cons_of_neg (by simpa using h)]

theorem digitCount_reverse (l : List Char) : digitCount l.reverse = digitCount l := by
  induction l with
  | nil => rfl
  | cons ch l ih =>
    rw [List.reverse_cons, digitCount_append, digitCount_cons, ih, digitCount_cons]
    simp [digitCount]
    omega

theorem digitCount_pyStrip (l : List Char) : digitCount (pyStrip l) = digitCount l := by
  unfold pyStrip
  rw [digitCount_reverse, digitCount_dropWhile_pyWS, digitCount_reverse,
    digitCount_dropWhile_pyWS]

/-- Claim C5 counterexample: on a flattened page text of sixteen consecutive
digits, the international pattern matches all sixteen, the stripped match has
length 16 ≥ 10 and is kept, so the returned phone list contains a number with
16 digits — more than the claimed 15. -/
theorem extract_contact_info_counterexample :
    ¬ ∀ p ∈ (extract_contact_info "1234567890123456".data).phones,
        digitCount p ≤ 15 := by
  intro hall
  have hmem : "1234567890123456".data ∈
      (extract_contact_info "1234567890123456".data).phones := by decide
  have h16 : digitCount "1234567890123456".data = 16 := by decide
  have := hall _ hmem
  omega

/-- Claim C5 (amended): every phone number returned by the contact extractor
has between 7 and 16 digits after stripping non-digit characters (in fact at
least 10), and the returned email and phone lists contain no duplicates. -/
theorem extract_contact_info_spec (text : List Char) :
    (extract_contact_info text).emails.Nodup ∧
    (extract_contact_info text).phones.Nodup ∧
    ∀ p ∈ (extract_contact_info text).phones,
      7 ≤ digitCount p ∧ digitCount p ≤ 16 := by
  refine ⟨List.nodup_dedup _, List.nodup_dedup _, ?_⟩
  intro p hp
  have hp1 : p ∈ ((refindall (fun _ => phoneUS) text ++ refindall (fun _ => phoneIntl) text ++
      refindall (fun _ => phoneParen) text).map pyStrip).filter
        (fun p => 10 ≤ p.length) := List.mem_dedup.mp hp
  have hp2 := List.mem_of_mem_filter hp1
  rcases List.mem_map.mp hp2 with ⟨q, hq, rfl⟩
  rw [digitCount_pyStrip]
  have hbound : (10 ≤ digitCount q ∧ digitCount q ≤ 11) ∨
      (10 ≤ digitCount q ∧ digitCount q ≤ 16) ∨
      (10 ≤ digitCount q ∧ digitCount q ≤ 10) := by
    rcases List.mem_append.mp hq with hq12 | hqP
    · rcases List.mem_append.mp hq12 with hqU | hqI
      · left
        rw [refindall] at hqU
        obtain ⟨prev', s', hm⟩ := mem_refindallAux _ _ _ _ hqU
        obtain ⟨hlo, hhi⟩ := matchSeq_digits _ _ _ _ hm
        have e1 : minDigits phoneUS = 10 := by decide
        have e2 : maxDigits phoneUS = 11 := by decide
        omega
      · right; left
        rw [refindall] at hqI
        obtain ⟨prev', s', hm⟩ := mem_refindallAux _ _ _ _ hqI
        obtain ⟨hlo, hhi⟩ := matchSeq_digits _ _ _ _ hm
        have e1 : minDigits phoneIntl = 10 := by decide
        have e2 : maxDigits phoneIntl = 16 := by decide
        omega
    · right; right
      rw [refindall] at hqP
      obtain ⟨prev', s', hm⟩ := mem_refindallAux _ _ _ _ hqP
      obtain ⟨hlo, hhi⟩ := matchSeq_digits _ _ _ _ hm
      have e1 : minDigits phoneParen = 10 := by decide
      have e2 : maxDigits phoneParen = 10 := by decide
      omega
  omega

/-- Claim C5 witness: the amended theorem applied to a page text holding one
plain 10-digit phone number. -/
theorem extract_contact_info_spec_witness :
    "1234567890".data ∈ (extract_contact_info "1234567890".data).phones ∧
    7 ≤ digitCount "1234567890".data ∧ digitCount "1234567890".data ≤ 16 := by
  have hmem : "1234567890".data ∈ (extract_contact_info "1234567890".data).phones := by
    decide
  exact ⟨hmem, (extract_contact_info_spec "1234567890".data).2.2 _ hmem⟩

/-! ### `WebScraper.extract_social_links` (scraper.py:117-145)

The seven platform pattern lists, lowercased (`re.IGNORECASE` is modelled by
lowercasing both the pattern literals and the scanned href).  The capture
group `([^/\s\?&]+)` at the end of every pattern is modelled by its first
mandatory character: `re.search` is only used as a Boolean and the extractor
stores the whole href, never the matched span, so the extent of the `+`
repetition is unobservable.  The non-capturing alternations
`(?:c/|channel/|user/)?` and `(?:company/|in/)?` are expanded into one
pattern per alternative plus the empty alternative, which preserves
match existence. -/

/-- The seven social platforms (the dict keys of `social_patterns`). -/
inductive Platform
  | instagram | facebook | twitter | tiktok | youtube | linkedin | pinterest
  deriving DecidableEq, Repr

/-- First mandatory character of the handle capture group `([^/\s\?&]+)`. -/
def handleItem : RegItem := .one .handleCls

/-- Compiled pattern alternatives per platform. -/
def platformPats : Platform → List (List RegItem)
  | .instagram =>
    [[.lit "instagram.com/".data, handleItem], [.lit "instagr.am/".data, handleItem]]
  | .facebook =>
    [[.lit "facebook.com/".data, handleItem], [.lit "fb.com/".data, handleItem]]
  | .twitter =>
    [[.lit "twitter.com/".data, handleItem], [.lit "x.com/".data, handleItem]]
  | .tiktok =>
    [[.lit "tiktok.com/".data, .opt (.chLit '@'), handleItem]]
  | .youtube =>
    [[.lit "youtube.com/c/".data, handleItem], [.lit "youtube.com/channel/".data, handleItem],
     [.lit "youtube.com/user/".data, handleItem], [.lit "youtube.com/".data, handleItem],
     [.lit "youtu.be/".data, handleItem]]
  | .linkedin =>
    [[.lit "linkedin.com/company/".data, handleItem], [.lit "linkedin.com/in/".data, handleItem],
     [.lit "linkedin.com/".data, handleItem]]
  | .pinterest =>
    [[.lit "pinterest.com/".data, handleItem]]

/-- Whether any of a platform's patterns matches somewhere in the href
(`re.search(pattern, href, re.IGNORECASE)`, then `break` out of the pattern
loop). -/
def platformMatches (pf : Platform) (href : List Char) : Bool :=
  (platformPats pf).any fun pat => research pat none (href.map Char.toLower)

/-- One iteration of the link loop (scraper.py:135-143): for every platform
whose patterns match this href, `social_handles[platform] = href` —
overwriting any earlier entry. -/
def socialStep (social : Platform → Option (List Char)) (href : List Char) :
    Platform → Option (List Char) :=
  fun pf => if platformMatches pf href then some href else social pf

/-- `WebScraper.extract_social_links`: fold the link hrefs over the empty
dict; the result maps each platform to its entry (at most one URL per
platform, by construction). -/
def extract_social_links (links : List (List Char)) : Platform → Option (List Char) :=
  links.foldl socialStep (fun _ => none)

/-- Claim C4 counterexample: with two Instagram links on the page, the
extractor returns the second — the later match overwrites the earlier one, so
"first match per platform wins" fails. -/
theorem extract_social_links_counterexample :
    extract_social_links
        ["https://instagram.com/alice".data, "https://instagram.com/bob".data]
        Platform.instagram = some "https://instagram.com/bob".data ∧
    "https://instagram.com/bob".data ≠ "https://instagram.com/alice".data := by
  constructor
  · decide
  · decide

theorem getLast?_cons_or {α : Type} (a : α) (l : List α) :
    (a :: l).getLast? = l.getLast?.or (some a) := by
  cases l with
  | nil => rfl
  | cons b l' =>
    rw [List.getLast?_cons_cons]
    cases hl : (b :: l').getLast? with
    | none => simp [List.getLast?_eq_none_iff] at hl
    | some x => simp [Option.or]

theorem foldl_socialStep_last (pf : Platform) :
    ∀ (links : List (List Char)) (init : Platform → Option (List Char)),
      links.foldl socialStep init pf =
        ((links.filter (platformMatches pf)).getLast?).or (init pf) := by
  intro links
  induction links with
  | nil => intro init; simp
  | cons a l ih =>
    intro init
    rw [List.foldl_cons, ih]
    by_cases ha : platformMatches pf a = true
    · rw [List.filter_cons_of_pos ha, getLast?_cons_or, Option.or_assoc]
      have : (some a).or (init pf) = socialStep init a pf := by
        simp [socialStep, ha]
      rw [← this]
    · rw [List.filter_cons_of_neg (by simpa using ha)]
      have : socialStep init a pf = init pf := by simp [socialStep, ha]
      rw [this]

/-- Claim C4 (amended): the social extractor keeps the LAST matching hyperlink
per platform — a later link matching a platform's patterns overwrites the
earlier entry, and each of the seven platforms holds at most one URL (the
result is one optional URL per platform). -/
theorem extract_social_links_spec (links : List (List Char)) (pf : Platform) :
    extract_social_links links pf = (links.filter (platformMatches pf)).getLast? := by
  rw [extract_social_links, foldl_socialStep_last]
  simp

/-! ### `DataExtractor.extract_faqs` (data_extractor.py:178-235, 286-452)

The document is modelled as the raw element texts returned by the
BeautifulSoup queries the extractor performs (sections, accordion items,
structured `Q:`/`A:` regex matches, list items, toggles, discovered FAQ page
URLs); all guards, truncations, string cleaning, pairing, early stopping,
deduplication and capping are modelled from the source. -/

/-- Python `str.strip()` on `String`. -/
def pyStripS (s : String) : String := ⟨pyStrip s.data⟩

/-- `DataExtractor._clean_html` on `String` (see `clean_htmlL`). -/
def clean_html (s : String) : String := ⟨clean_htmlL s.data⟩

/-- Python slicing `s[:n]`. -/
def pyTake (s : String) (n : Nat) : String := ⟨s.data.take n⟩

/-- Python `'?' in s`. -/
def containsQM (s : String) : Bool := s.data.contains '?'

/-- A heading element found inside an FAQ-labelled section of the current page
(data_extractor.py:188-208): its text, and the text of the associated answer
element (next sibling, else the first paragraph-like candidate in the
parent) when one was found. -/
structure QuestionBlock where
  text : String
  answer : Option String
  deriving DecidableEq, Repr

/-- One FAQ-labelled section of the current page: the heading-like elements
(`find_all([...], limit=10)`; the limit is applied in the extractor body). -/
structure FaqSection where
  questions : List QuestionBlock
  deriving DecidableEq, Repr

/-- One accordion item (data_extractor.py:320-342): the text of the found
question element and of the found answer element, when present. -/
structure AccordionItem where
  question : Option String
  answer : Option String
  deriving DecidableEq, Repr

/-- One toggle element (data_extractor.py:412-435): its text and the text of
the answer element resolved via `data-target`/`aria-controls`/next sibling. -/
structure ToggleItem where
  text : String
  answer : Option String
  deriving DecidableEq, Repr

/-- A dedicated FAQ page as seen by the four strategies of
`_extract_faqs_from_page`: accordion items per accordion selector, `Q:`/`A:`
regex matches per structured container, list-item texts per FAQ list, and
toggles per toggle selector. -/
structure FaqPage where
  accordionItems : List (List AccordionItem)
  structuredContainers : List (List (String × String))
  listFaqLists : List (List String)
  toggleItems : List (List ToggleItem)
  deriving DecidableEq, Repr

/-- The current page as seen by `extract_faqs`: its FAQ-labelled sections and
the FAQ page URLs discovered by `_find_faq_links`. -/
structure FaqDoc where
  faqSections : List FaqSection
  faqUrls : List String
  deriving DecidableEq, Repr

/-- Section scan of `extract_faqs` (data_extractor.py:188-215): for each of
the first 10 headings of each FAQ section, keep the pair when an answer
element exists, the stripped question text is nonempty, and the cleaned
answer text is longer than 10 characters; answer truncated to 500 characters,
category `"General"`. -/
def extractSectionFaqs (doc : FaqDoc) : List FAQ :=
  doc.faqSections.flatMap fun sec =>
    (sec.questions.take 10).filterMap fun qb =>
      match qb.answer with
      | none => none
      | some araw =>
        if pyStripS qb.text ≠ "" then
          if 10 < (clean_html araw).length then
            some { question := pyStripS qb.text, answer := pyTake (clean_html araw) 500,
                   category := some "General" }
          else none
        else none

/-- `DataExtractor._extract_accordion_faqs`: at most 5 items per accordion
selector; keep an item when question and answer elements were found, the
stripped question text is nonempty and contains `'?'`, and the cleaned answer
is longer than 10 characters; question truncated to 200, answer to 500. -/
def extract_accordion_faqs (page : FaqPage) : List FAQ :=
  page.accordionItems.flatMap fun items =>
    (items.take 5).filterMap fun it =>
      match it.question with
      | none => none
      | some qraw =>
        match it.answer with
        | none => none
        | some araw =>
          if pyStripS qraw ≠ "" ∧ containsQM (pyStripS qraw) = true then
            if 10 < (clean_html araw).length then
              some { question := pyTake (pyStripS qraw) 200,
                     answer := pyTake (clean_html araw) 500, category := some "FAQ Page" }
            else none
          else none

/-- `DataExtractor._extract_structured_faqs`: first 3 containers, first 3
`Q:`/`A:` matches each; keep a pair when the stripped question is longer than
5 characters and the cleaned stripped answer longer than 10. -/
def extract_structured_faqs (page : FaqPage) : List FAQ :=
  (page.structuredContainers.take 3).flatMap fun qaMatches =>
    (qaMatches.take 3).filterMap fun qa =>
      if 5 < (pyStripS qa.1).length then
        if 10 < (clean_html (pyStripS qa.2)).length then
          some { question := pyTake (pyStripS qa.1) 200,
                 answer := pyTake (clean_html (pyStripS qa.2)) 500,
                 category := some "Structured FAQ" }
        else none
      else none

/-- Python `for i in range(0, len(items) - 1, 2)` pairing consecutive items. -/
def pairUp : List String → List (String × String)
  | q :: a :: rest => (q, a) :: pairUp rest
  | _ => []

/-- `DataExtractor._extract_list_faqs`: first 2 FAQ lists, items processed in
pairs; keep a pair when the stripped question contains `'?'` and the cleaned
answer is longer than 10 characters. -/
def extract_list_faqs (page : FaqPage) : List FAQ :=
  (page.listFaqLists.take 2).flatMap fun items =>
    (pairUp items).filterMap fun qa =>
      if containsQM (pyStripS qa.1) = true ∧ 10 < (clean_html qa.2).length then
        some { question := pyTake (pyStripS qa.1) 200, answer := pyTake (clean_html qa.2) 500,
               category := some "List FAQ" }
      else none

/-- `DataExtractor._extract_toggle_faqs`: at most 5 toggles per selector; keep
a toggle when an answer element was resolved, the stripped toggle text
contains `'?'`, and the cleaned answer is longer than 10 characters. -/
def extract_toggle_faqs (page : FaqPage) : List FAQ :=
  page.toggleItems.flatMap fun toggles =>
    (toggles.take 5).filterMap fun tg =>
      match tg.answer with
      | none => none
      | some araw =>
        if containsQM (pyStripS tg.text) = true then
          if 10 < (clean_html araw).length then
            some { question := pyTake (pyStripS tg.text) 200,
                   answer := pyTake (clean_html araw) 500, category := some "Toggle FAQ" }
          else none
        else none

/-- `DataExtractor._extract_faqs_from_page`: run the four strategies in
order, stopping once at least 5 entries have accumulated. -/
def extract_faqs_from_page (page : FaqPage) : List FAQ :=
  if 5 ≤ (extract_accordion_faqs page).length then extract_accordion_faqs page else
  if 5 ≤ (extract_accordion_faqs page ++ extract_structured_faqs page).length then
    extract_accordion_faqs page ++ extract_structured_faqs page else
  if 5 ≤ (extract_accordion_faqs page ++ extract_structured_faqs page ++
      extract_list_faqs page).length then
    extract_accordion_faqs page ++ extract_structured_faqs page ++ extract_list_faqs page
  else
    extract_accordion_faqs page ++ extract_structured_faqs page ++ extract_list_faqs page ++
      extract_toggle_faqs page

/-- FAQ-page loop of `extract_faqs` (data_extractor.py:222-229): fetch each of
the first 3 discovered FAQ URLs, extend the accumulator with each fetched
page's FAQs, and stop early once 10 entries have accumulated. -/
def faqPagesLoop (env : String → Option FaqPage) : List String → List FAQ → List FAQ
  | [], acc => acc
  | u :: rest, acc =>
    match env u with
    | some page =>
      if 10 ≤ (acc ++ extract_faqs_from_page page).length then
        acc ++ extract_faqs_from_page page
      else faqPagesLoop env rest (acc ++ extract_faqs_from_page page)
    | none => faqPagesLoop env rest acc

/-- Normalized question form of `_remove_duplicate_faqs`
(data_extractor.py:446): `re.sub(r'[^\w\s]', '', question.lower()).strip()`. -/
def normalizeQuestion (q : String) : String :=
  ⟨pyStrip ((q.data.map Char.toLower).filter (fun c => isWordCh c || pyWS c))⟩

/-- `DataExtractor._remove_duplicate_faqs`: keep a FAQ when its normalized
question is unseen and longer than 5 characters. -/
def removeDuplicateFaqs : List FAQ → List String → List FAQ
  | [], _ => []
  | f :: rest, seen =>
    if normalizeQuestion f.question ∉ seen ∧ 5 < (normalizeQuestion f.question).length then
      f :: removeDuplicateFaqs rest (normalizeQuestion f.question :: seen)
    else removeDuplicateFaqs rest seen

/-- `DataExtractor.extract_faqs`: section scan, FAQ-page loop over the first 3
discovered URLs, deduplication, and the final cap at 10 entries. -/
def extract_faqs (doc : FaqDoc) (env : String → Option FaqPage) : List FAQ :=
  (removeDuplicateFaqs
    (faqPagesLoop env (doc.faqUrls.take 3) (extractSectionFaqs doc)) []).take 10

theorem length_pyTake (s : String) (n : Nat) : (pyTake s n).length = min n s.length := by
  show (s.data.take n).length = min n s.data.length
  exact List.length_take n s.data

theorem answers_extractSectionFaqs (doc : FaqDoc) :
    ∀ f ∈ extractSectionFaqs doc, 10 < f.answer.length := by
  intro f hf
  rcases List.mem_flatMap.mp hf with ⟨sec, _, hf2⟩
  rcases List.mem_filterMap.mp hf2 with ⟨qb, _, hg⟩
  cases hans : qb.answer with
  | none => simp only [hans] at hg; exact absurd hg (by simp)
  | some araw =>
    simp only [hans] at hg
    split_ifs at hg with h1 h2
    · injection hg with hg
      subst hg
      show 10 < (pyTake (clean_html araw) 500).length
      rw [length_pyTake]
      omega

theorem answers_extract_accordion_faqs (page : FaqPage) :
    ∀ f ∈ extract_accordion_faqs page, 10 < f.answer.length := by
  intro f hf
  rcases List.mem_flatMap.mp hf with ⟨items, _, hf2⟩
  rcases List.mem_filterMap.mp hf2 with ⟨it, _, hg⟩
  cases hq : it.question with
  | none => simp only [hq] at hg; exact absurd hg (by simp)
  | some qraw =>
    simp only [hq] at hg
    cases hans : it.answer with
    | none => simp only [hans] at hg; exact absurd hg (by simp)
    | some araw =>
      simp only [hans] at hg
      split_ifs at hg with h1 h2
      · injection hg with hg
        subst hg
        show 10 < (pyTake (clean_html araw) 500).length
        rw [length_pyTake]
        omega

theorem answers_extract_structured_faqs (page : FaqPage) :
    ∀ f ∈ extract_structured_faqs page, 10 < f.answer.length := by
  intro f hf
  rcases List.mem_flatMap.mp hf with ⟨qaMatches, _, hf2⟩
  rcases List.mem_filterMap.mp hf2 with ⟨qa, _, hg⟩
  split_ifs at hg with h1 h2
  · injection hg with hg
    subst hg
    show 10 < (pyTake (clean_html (pyStripS qa.2)) 500).length
    rw [length_pyTake]
    omega

theorem answers_extract_list_faqs (page : FaqPage) :
    ∀ f ∈ extract_list_faqs page, 10 < f.answer.length := by
  intro f hf
  rcases List.mem_flatMap.mp hf with ⟨items, _, hf2⟩
  rcases List.mem_filterMap.mp hf2 with ⟨qa, _, hg⟩
  split_ifs at hg with h1
  · injection hg with hg
    subst hg
    show 10 < (pyTake (clean_html qa.2) 500).length
    rw [length_pyTake]
    omega

theorem answers_extract_toggle_faqs (page : FaqPage) :
    ∀ f ∈ extract_toggle_faqs page, 10 < f.answer.length := by
  intro f hf
  rcases List.mem_flatMap.mp hf with ⟨toggles, _, hf2⟩
  rcases List.mem_filterMap.mp hf2 with ⟨tg, _, hg⟩
  cases hans : tg.answer with
  | none => simp only [hans] at hg; exact absurd hg (by simp)
  | some araw =>
    simp only [hans] at hg
    split_ifs at hg with h1 h2
    · injection hg with hg
      subst hg
      show 10 < (pyTake (clean_html araw) 500).length
      rw [length_pyTake]
      omega

theorem answers_extract_faqs_from_page (page : FaqPage) :
    ∀ f ∈ extract_faqs_from_page page, 10 < f.answer.length := by
  intro f hf
  rw [extract_faqs_from_page] at hf
  split_ifs at hf
  · exact answers_extract_accordion_faqs page f hf
  · rcases List.mem_append.mp hf with h | h
    · exact answers_extract_accordion_faqs page f h
    · exact answers_extract_structured_faqs page f h
  · rcases List.mem_append.mp hf with h | h
    · rcases List.mem_append.mp h with h2 | h2
      · exact answers_extract_accordion_faqs page f h2
      · exact answers_extract_structured_faqs page f h2
    · exact answers_extract_list_faqs page f h
  · rcases List.mem_append.mp hf with h | h
    · rcases List.mem_append.mp h with h2 | h2
      · rcases List.mem_append.mp h2 with h3 | h3
        · exact answers_extract_accordion_faqs page f h3
        · exact answers_extract_structured_faqs page f h3
      · exact answers_extract_list_faqs page f h2
    · exact answers_extract_toggle_faqs page f h

theorem answers_faqPagesLoop (env : String → Option FaqPage) :
    ∀ (urls : List String) (acc : List FAQ),
      (∀ f ∈ acc, 10 < f.answer.length) →
      ∀ f ∈ faqPagesLoop env urls acc, 10 < f.answer.length := by
  intro urls
  induction urls with
  | nil => intro acc hacc f hf; rw [faqPagesLoop] at hf; exact hacc f hf
  | cons u rest ih =>
    intro acc hacc f hf
    rw [faqPagesLoop] at hf
    cases henv : env u with
    | none => simp only [henv] at hf; exact ih acc hacc f hf
    | some page =>
      simp only [henv] at hf
      have hext : ∀ g ∈ acc ++ extract_faqs_from_page page, 10 < g.answer.length := by
        intro g hg
        rcases List.mem_append.mp hg with h | h
        · exact hacc g h
        · exact answers_extract_faqs_from_page page g h
      split_ifs at hf with hlen
      · exact hext f hf
      · exact ih _ hext f hf

theorem mem_removeDuplicateFaqs :
    ∀ (l : List FAQ) (seen : List String) (f : FAQ),
      f ∈ removeDuplicateFaqs l seen → f ∈ l := by
  intro l
  induction l with
  | nil => intro seen f hf; simp [removeDuplicateFaqs] at hf
  | cons g rest ih =>
    intro seen f hf
    rw [removeDuplicateFaqs] at hf
    split_ifs at hf with h
    · rcases List.mem_cons.mp hf with rfl | hf2
      · exact List.mem_cons_self _ _
      · exact List.mem_cons_of_mem _ (ih _ _ hf2)
    · exact List.mem_cons_of_mem _ (ih _ _ hf)

theorem nodup_removeDuplicateFaqs :
    ∀ (l : List FAQ) (seen : List String),
      ((removeDuplicateFaqs l seen).map (fun f => normalizeQuestion f.question)).Nodup ∧
      ∀ q ∈ (removeDuplicateFaqs l seen).map (fun f => normalizeQuestion f.question),
        q ∉ seen := by
  intro l
  induction l with
  | nil => intro seen; simp [removeDuplicateFaqs]
  | cons g rest ih =>
    intro seen
    rw [removeDuplicateFaqs]
    split_ifs with h
    · obtain ⟨hnd, hns⟩ := ih (normalizeQuestion g.question :: seen)
      constructor
      · rw [List.map_cons, List.nodup_cons]
        exact ⟨fun hmem => (hns _ hmem) (List.mem_cons_self _ _), hnd⟩
      · intro q hq
        rcases List.mem_cons.mp hq with rfl | hq2
        · exact h.1
        · exact fun hqseen => (hns q hq2) (List.mem_cons_of_mem _ hqseen)
    · exact ih seen

/-- Claim C7: for every input document, the FAQ extractor returns at most 10
entries, no returned answer has fewer than 10 characters, and no two entries
share a normalized (punctuation-stripped, lowercased) question string. -/
theorem extract_faqs_spec (doc : FaqDoc) (env : String → Option FaqPage) :
    (extract_faqs doc env).length ≤ 10 ∧
    (∀ f ∈ extract_faqs doc env, 10 ≤ f.answer.length) ∧
    ((extract_faqs doc env).map (fun f => normalizeQuestion f.question)).Nodup := by
  refine ⟨List.length_take_le _ _, ?_, ?_⟩
  · intro f hf
    have hf1 := List.mem_of_mem_take hf
    have hf2 := mem_removeDuplicateFaqs _ _ _ hf1
    have hlt := answers_faqPagesLoop env _ _ (answers_extractSectionFaqs doc) f hf2
    omega
  · have hnd := (nodup_removeDuplicateFaqs
      (faqPagesLoop env (doc.faqUrls.take 3) (extractSectionFaqs doc)) []).1
    rw [extract_faqs, List.map_take]
    exact hnd.sublist (List.take_sublist _ _)

/-- Concrete FAQ document for the C7 witness: one FAQ section holding one
answered question. -/
def faqSampleDoc : FaqDoc :=
  ⟨[⟨[⟨"Do you ship?", some "We ship worldwide within five days."⟩]⟩], []⟩

/-- Claim C7 witness: the theorem applied at a concrete document, with the
answer-length conclusion discharged at the concrete extracted entry. -/
theorem extract_faqs_spec_witness :
    (extract_faqs faqSampleDoc (fun _ => none)).length ≤ 10 ∧
    10 ≤ (FAQ.mk "Do you ship?" "We ship worldwide within five days."
      (some "General")).answer.length := by
  constructor
  · exact (extract_faqs_spec faqSampleDoc (fun _ => none)).1
  · refine (extract_faqs_spec faqSampleDoc (fun _ => none)).2.1 _ ?_
    decide

/-! ### `DataExtractor.extract_complete_insights` (data_extractor.py:517-577)

The orchestration sequence.  Each step the method calls is supplied by an
environment record; a step that raises is modelled as `Except.error` carrying
`str(e)`.  The homepage fetch returning `None` makes the body raise
`Exception("Could not fetch website content")` itself (data_extractor.py:525-526). -/

/-- Results of the collaborator calls made by `extract_complete_insights`, over
opaque parsed-page and raw-product types. -/
structure ExtractionEnv (Soup RawProduct : Type) where
  get_page_content : String → Except String (Option Soup)
  is_shopify_store : String → Soup → Except String Bool
  get_brand_name : Soup → String → Except String String
  get_all_products : String → Except String (List RawProduct)
  extract_products_from_json : List RawProduct → String → Except String (List ProductModel)
  extract_hero : Soup → List ProductModel → String → Except String (List ProductModel)
  extract_contact_details : Soup → String → Except String ContactDetails
  extract_social_handles : Soup → String → Except String SocialHandles
  extract_policies : Soup → String → Except String PolicyInfo
  extract_faqs_step : Soup → String → Except String (List FAQ)
  extract_brand_context : Soup → String → Except String String
  extract_important_links : Soup → String → Except String ImportantLinks

/-- Body of the `try` block of `extract_complete_insights`: normalize the URL,
fetch the homepage (raising when it cannot be fetched), run the Shopify check
(result only logged), then every extraction step in source order, and build
the success record with `extraction_success = True`, `errors = []` and
`total_products = len(product_catalog)`. -/
def extract_complete_insightsE {Soup RawProduct : Type}
    (env : ExtractionEnv Soup RawProduct) (url0 : String) :
    Except String BrandInsights := do
  let url := normalize_urlS url0
  let soup? ← env.get_page_content url
  match soup? with
  | none => throw "Could not fetch website content"
  | some soup => do
    let _ ← env.is_shopify_store url soup
    let brand_name ← env.get_brand_name soup url
    let raw ← env.get_all_products url
    let catalog ← env.extract_products_from_json raw url
    let hero ← env.extract_hero soup catalog url
    let contact ← env.extract_contact_details soup url
    let social ← env.extract_social_handles soup url
    let pol ← env.extract_policies soup url
    let fq ← env.extract_faqs_step soup url
    let ctx ← env.extract_brand_context soup url
    let links ← env.extract_important_links soup url
    pure { brand_name := brand_name, website_url := url, product_catalog := catalog,
           hero_products := hero, contact_details := contact, social_handles := social,
           policies := pol, faqs := fq, brand_context := some ctx,
           important_links := links, total_products := catalog.length,
           extraction_success := true, errors := [] }

/-- The `BrandInsights` built by the `except` branch (data_extractor.py:566-577):
brand name `"Unknown"`, the (already normalized) URL, every structured field
at its pydantic default, `extraction_success = False` and the exception
message as the single error. -/
def errorInsight (url0 : String) (e : String) : BrandInsights :=
  { brand_name := "Unknown", website_url := normalize_urlS url0,
    product_catalog := [], hero_products := [],
    contact_details := contactDetailsDefault, social_handles := socialHandlesDefault,
    policies := policyInfoDefault, faqs := [], brand_context := none,
    important_links := importantLinksDefault, total_products := 0,
    extraction_success := false, errors := [e] }

/-- `DataExtractor.extract_complete_insights`: the `try`/`except` wrapper.
Totality of this function is the model of "never raises". -/
def extract_complete_insights {Soup RawProduct : Type}
    (env : ExtractionEnv Soup RawProduct) (url0 : String) : BrandInsights :=
  match extract_complete_insightsE env url0 with
  | .ok i => i
  | .error e => errorInsight url0 e

/-- Claim C2: the insight assembler always returns a BrandInsight (it is a
total function); when any step of the extraction sequence raises, the result
has `success = false`, all structured fields empty/defaulted, brand name
`"Unknown"` and the exception message as the only error entry; when no step
raises it returns the assembled record unchanged, with `success = true`; and
a homepage fetch returning no content produces exactly the error record for
`"Could not fetch website content"`. -/
theorem extract_complete_insights_spec {Soup RawProduct : Type}
    (env : ExtractionEnv Soup RawProduct) (url : String) :
    (∀ e, extract_complete_insightsE env url = .error e →
      extract_complete_insights env url = errorInsight url e ∧
      (extract_complete_insights env url).extraction_success = false ∧
      (extract_complete_insights env url).brand_name = "Unknown" ∧
      (extract_complete_insights env url).product_catalog = [] ∧
      (extract_complete_insights env url).faqs = [] ∧
      (extract_complete_insights env url).errors = [e]) ∧
    (∀ i, extract_complete_insightsE env url = .ok i →
      extract_complete_insights env url = i ∧ i.extraction_success = true) ∧
    (env.get_page_content (normalize_urlS url) = .ok none →
      extract_complete_insights env url =
        errorInsight url "Could not fetch website content") := by
  refine ⟨?_, ?_, ?_⟩
  · intro e he
    rw [extract_complete_insights, he]
    exact ⟨rfl, rfl, rfl, rfl, rfl, rfl⟩
  · intro i hi
    constructor
    · rw [extract_complete_insights, hi]
    · rw [extract_complete_insightsE] at hi
      simp only [bind, Except.bind] at hi
      cases hpage : env.get_page_content (normalize_urlS url) with
      | error e => simp only [hpage] at hi; simp at hi
      | ok soup? =>
        simp only [hpage] at hi
        cases soup? with
        | none => simp [throw, throwThe, MonadExceptOf.throw] at hi
        | some soup =>
          simp only at hi
          cases h1 : env.is_shopify_store (normalize_urlS url) soup with
          | error e => simp only [h1] at hi; simp at hi
          | ok b1 =>
            simp only [h1] at hi
            cases h2 : env.get_brand_name soup (normalize_urlS url) with
            | error e => simp only [h2] at hi; simp at hi
            | ok brand =>
              simp only [h2] at hi
              cases h3 : env.get_all_products (normalize_urlS url) with
              | error e => simp only [h3] at hi; simp at hi
              | ok raw =>
                simp only [h3] at hi
                cases h4 : env.extract_products_from_json raw (normalize_urlS url) with
                | error e => simp only [h4] at hi; simp at hi
                | ok catalog =>
                  simp only [h4] at hi
                  cases h5 : env.extract_hero soup catalog (normalize_urlS url) with
                  | error e => simp only [h5] at hi; simp at hi
                  | ok hero =>
                    simp only [h5] at hi
                    cases h6 : env.extract_contact_details soup (normalize_urlS url) with
                    | error e => simp only [h6] at hi; simp at hi
                    | ok contact =>
                      simp only [h6] at hi
                      cases h7 : env.extract_social_handles soup (normalize_urlS url) with
                      | error e => simp only [h7] at hi; simp at hi
                      | ok social =>
                        simp only [h7] at hi
                        cases h8 : env.extract_policies soup (normalize_urlS url) with
                        | error e => simp only [h8] at hi; simp at hi
                        | ok pol =>
                          simp only [h8] at hi
                          cases h9 : env.extract_faqs_step soup (normalize_urlS url) with
                          | error e => simp only [h9] at hi; simp at hi
                          | ok fq =>
                            simp only [h9] at hi
                            cases h10 : env.extract_brand_context soup (normalize_urlS url) with
                            | error e => simp only [h10] at hi; simp at hi
                            | ok ctx =>
                              simp only [h10] at hi
                              cases h11 : env.extract_important_links soup (normalize_urlS url) with
                              | error e => simp only [h11] at hi; simp at hi
                              | ok links =>
                                simp only [h11] at hi
                                simp only [pure, Except.pure, Except.ok.injEq] at hi
                                rw [← hi]
  · intro hpage
    have he : extract_complete_insightsE env url = .error "Could not fetch website content" := by
      rw [extract_complete_insightsE]
      simp only [bind, Except.bind]
      rw [hpage]
      rfl
    rw [extract_complete_insights, he]

/-- Environment whose homepage fetch yields no content; every other step
succeeds trivially. -/
def unreachableEnv : ExtractionEnv Unit Unit :=
  { get_page_content := fun _ => .ok none,
    is_shopify_store := fun _ _ => .ok false,
    get_brand_name := fun _ _ => .ok "B",
    get_all_products := fun _ => .ok [],
    extract_products_from_json := fun _ _ => .ok [],
    extract_hero := fun _ _ _ => .ok [],
    extract_contact_details := fun _ _ => .ok contactDetailsDefault,
    extract_social_handles := fun _ _ => .ok socialHandlesDefault,
    extract_policies := fun _ _ => .ok policyInfoDefault,
    extract_faqs_step := fun _ _ => .ok [],
    extract_brand_context := fun _ _ => .ok "",
    extract_important_links := fun _ _ => .ok importantLinksDefault }

/-- Claim C2 witness: the theorem applied to a concrete environment whose
homepage fetch fails, discharging the error hypothesis there. -/
theorem extract_complete_insights_spec_witness :
    extract_complete_insights unreachableEnv "shop.example" =
      errorInsight "shop.example" "Could not fetch website content" ∧
    (extract_complete_insights unreachableEnv "shop.example").extraction_success = false := by
  have h := (extract_complete_insights_spec unreachableEnv "shop.example").1
    "Could not fetch website content" (by rfl)
  exact ⟨h.1, h.2.1⟩

end StoreAnalyzer
